import Mathlib

/-!
# Verification of `pawslib`

Shallow embedding of the `pawslib` repository:

* `ec2.py` — `split_net_across_zones`, which partitions a CIDR network
  into subnets spread across availability zones;
* `var.py` and `src/pawslib/var.py` — two copies of the `alphanum`
  string normalizer.

Python machine-level details are made explicit: arbitrary-precision
`int` is `Int`, bitwise `&` on negatives is two's complement
(`Int.land`), characters are ASCII code points (`Nat`), and fallible
code returns `Except`.  The one external collaborator
(`describe_availability_zones`) is modelled by passing its response as
an argument and recording the outbound call in an event trace.
-/

namespace Pawslib

/-! ## Data model for `ec2.split_net_across_zones` -/

/-- A Python numeric argument: an `int` or a `float`.  The float's
payload never matters below — any float hits the same `TypeError` in
the validation line — but is kept so concrete inputs like `2.0` can be
written down. -/
inductive PyVal where
  | int (n : Int)
  | float (q : Int)
deriving DecidableEq, Repr

/-- The Python exceptions the modelled code can raise. -/
inductive PyErr where
  | valueError
  | typeError
  | zeroDivisionError
deriving DecidableEq, Repr

/-- Observable external events.  The function performs exactly one kind
of outbound call: the boto3 `describe_availability_zones` read. -/
inductive Ev where
  | describeAZs
deriving DecidableEq, Repr

/-- The semantic content of a parsed IPv4 network: numeric address plus
prefix length. -/
structure IPv4Net where
  addr : Nat
  prefixlen : Nat
deriving DecidableEq, Repr, Inhabited

/-- Modelled from stdlib `ipaddress`: a `(addr, prefixlen)` pair denotes
a valid IPv4 network iff the address fits in 32 bits, the prefix length
is at most 32, and all host bits are zero (`ip_network` defaults to
`strict=True`). -/
def ipNetworkValid (n : IPv4Net) : Bool :=
  decide (n.addr < 2 ^ 32) && decide (n.prefixlen ≤ 32)
    && decide (n.addr % 2 ^ (32 - n.prefixlen) = 0)

/-- Modelled from stdlib `ipaddress.ip_network`: the text argument is
supplied pre-tokenized — `none` for a string that does not scan as
`a.b.c.d/p` at all (e.g. `"not-a-cidr"`), `some n` for one denoting
`n`.  Both a non-scanning string and an invalid network raise
`ValueError`. -/
def ip_network : Option IPv4Net → Except PyErr IPv4Net
  | none => .error .valueError
  | some n => if ipNetworkValid n then .ok n else .error .valueError

/-- Fuelled base-2 integer logarithm (structural recursion so the
kernel can evaluate it). -/
def log2fuel : Nat → Nat → Nat
  | 0, _ => 0
  | fuel + 1, n => if n ≤ 1 then 0 else log2fuel fuel (n / 2) + 1

/-- Modelled from stdlib: `int(log(subnets, 2))`.  Every value reaching
this expression is a positive power of two (the validation line ran
first), and on those the float computation is exact, so it is modelled
as the integer base-2 logarithm. -/
def intLog2 (n : Int) : Nat := log2fuel n.toNat n.toNat

/-- Modelled from stdlib `IPv4Network.subnets(prefixlen_diff=d)`: raises
`ValueError` when the new prefix length would exceed 32, else yields the
`2 ^ d` consecutive equal-sized sub-blocks with prefix length
`prefixlen + d`, in ascending address order. -/
def pySubnets (n : IPv4Net) (d : Nat) : Except PyErr (List IPv4Net) :=
  if 32 < n.prefixlen + d then .error .valueError
  else .ok ((List.range (2 ^ d)).map fun k =>
    ⟨n.addr + k * 2 ^ (32 - (n.prefixlen + d)), n.prefixlen + d⟩)

/-- Decimal rendering of one octet group of an IPv4 address. -/
def ipToStr (a : Nat) : String :=
  toString (a / 2 ^ 24 % 256) ++ "." ++ toString (a / 2 ^ 16 % 256) ++ "."
    ++ toString (a / 2 ^ 8 % 256) ++ "." ++ toString (a % 256)

/-- Modelled from stdlib: `IPv4Network.with_prefixlen`, the
`"a.b.c.d/p"` string. -/
def with_prefixlen (n : IPv4Net) : String :=
  ipToStr n.addr ++ "/" ++ toString n.prefixlen

/-- One output record `{"cidr": ..., "az": ...}`. -/
structure SubnetAssign where
  cidr : String
  az : String
deriving DecidableEq, Repr, Inhabited

/-- The validation line
`if not (not subnets & (subnets - 1) and subnets and type(subnets) is int)`.
Python evaluates `subnets & (subnets - 1)` first, so a float argument
raises `TypeError` there, before any of the remaining conjuncts (in
particular before the `type(subnets) is int` test meant to catch it).
For an `int` argument the whole condition reduces to
`n & (n - 1) == 0 and n != 0`, with `&` the two's-complement bitwise
AND. -/
def subnetsCheck : PyVal → Except PyErr Unit
  | .float _ => .error .typeError
  | .int n => if Int.land n (n - 1) = 0 ∧ n ≠ 0 then .ok () else .error .valueError

/-- The underlying numeric value, used after validation has passed (at
which point the argument is always an `int`). -/
def pyIntVal : PyVal → Int
  | .int n => n
  | .float q => q

/-- The `for index, subnet in enumerate(snets)` loop of
`split_net_across_zones`.  With an empty zone list, the first
iteration's `azs[index % len(azs)]` raises `ZeroDivisionError` (Python's
`% 0`); when no iteration runs the empty list is returned; otherwise
entry `i` is `{"cidr": snets[i].with_prefixlen, "az": azs[i % len(azs)]}`,
in enumeration order. -/
def assignZones (azs : List String) (snets : List IPv4Net) :
    Except PyErr (List SubnetAssign) :=
  if azs.length = 0 then
    if snets.length = 0 then .ok [] else .error .zeroDivisionError
  else
    .ok ((List.range snets.length).map fun i =>
      ⟨with_prefixlen (snets.getD i default), azs.getD (i % azs.length) ""⟩)

instance {ε α : Type} [DecidableEq ε] [DecidableEq α] : DecidableEq (Except ε α) :=
  fun a b =>
    match a, b with
    | .error e, .error f =>
        decidable_of_iff (e = f) ⟨fun h => by rw [h], fun h => by cases h; rfl⟩
    | .ok x, .ok y =>
        decidable_of_iff (x = y) ⟨fun h => by rw [h], fun h => by cases h; rfl⟩
    | .error _, .ok _ => isFalse fun h => by cases h
    | .ok _, .error _ => isFalse fun h => by cases h

/-- `split_net_across_zones(net, region, subnets, b3_session)` from
`ec2.py`.  `region` and `b3_session` only select which boto3 client
issues the `describe_availability_zones` read; the read itself is
modelled by the `zones` argument (the collaborator's response) and by
the `Ev.describeAZs` entry in the returned trace, placed exactly where
the source performs the call: after the subnet-count validation and
before the network parse. -/
def split_net_across_zones (subnets : PyVal) (net : Option IPv4Net)
    (zones : List String) : List Ev × Except PyErr (List SubnetAssign) :=
  match subnetsCheck subnets with
  | .error e => ([], .error e)
  | .ok _ =>
    match ip_network net with
    | .error e => ([.describeAZs], .error e)
    | .ok n =>
      match pySubnets n (intLog2 (pyIntVal subnets)) with
      | .error e => ([.describeAZs], .error e)
      | .ok snets => ([.describeAZs], assignZones zones snets)

example :
    split_net_across_zones (.int 4) (some ⟨3232235776, 24⟩) ["a", "b", "c"] =
      ([.describeAZs], .ok
        [⟨"192.168.1.0/26", "a"⟩, ⟨"192.168.1.64/26", "b"⟩,
         ⟨"192.168.1.128/26", "c"⟩, ⟨"192.168.1.192/26", "a"⟩]) := by
  decide

example :
    split_net_across_zones (.int 3) (some ⟨3232235776, 24⟩) ["a"] =
      ([], .error .valueError) := by decide

example :
    split_net_across_zones (.float 2) (some ⟨3232235776, 24⟩) ["a"] =
      ([], .error .typeError) := by decide

example :
    split_net_across_zones (.int 1024) (some ⟨3232235776, 24⟩) ["a"] =
      ([.describeAZs], .error .valueError) := by decide

example :
    split_net_across_zones (.int 4) (some ⟨3232235776, 24⟩) [] =
      ([.describeAZs], .error .zeroDivisionError) := by decide

example :
    split_net_across_zones (.int (-2)) none [] = ([], .error .valueError) := by
  decide

/-! ## Data model for `var.alphanum` (both copies)

Strings are lists of code points; the character classes of the regex
`[\W_]` and Python's `str.upper` / `str.capitalize` are modelled on
ASCII. -/

/-- ASCII letter or digit.  The regex `[\W_]` of `alphanum` matches a
character iff this is false (`\W` is the complement of
`[A-Za-z0-9_]`, and the class puts `_` back in). -/
def isAlnumCh (c : Nat) : Bool :=
  (48 ≤ c && c ≤ 57) || (65 ≤ c && c ≤ 90) || (97 ≤ c && c ≤ 122)

/-- `re.search(r"[\W_]", s)`: index of the leftmost non-alphanumeric
character, `none` when the whole string is clean.  A match always has
length one, so `m.start() = i` and `m.end() = i + 1`. -/
def findBad : List Nat → Option Nat
  | [] => none
  | c :: cs => if isAlnumCh c then (findBad cs).map (· + 1) else some 0

/-- ASCII `str.upper` on one character. -/
def toUpperCh (c : Nat) : Nat := if 97 ≤ c && c ≤ 122 then c - 32 else c

/-- ASCII `str.lower` on one character. -/
def toLowerCh (c : Nat) : Nat := if 65 ≤ c && c ≤ 90 then c + 32 else c

/-- Python `str.capitalize`: first character uppercased, every later
character lowercased. -/
def pyCapitalize : List Nat → List Nat
  | [] => []
  | c :: cs => toUpperCh c :: cs.map toLowerCh

/-- One iteration of the `while` loop of `alphanum` in `src/var.py` (the
top-level copy): with the match at index `i`, drop a leading match, drop
a trailing match, or splice `string[:i] + string[i+1:].capitalize()`. -/
def stepA (s : List Nat) (i : Nat) : List Nat :=
  if i = 0 then s.drop 1
  else if i = s.length - 1 then s.take (s.length - 1)
  else s.take i ++ pyCapitalize (s.drop (i + 1))

/-- One iteration of the `while` loop of `alphanum` in
`src/src/pawslib/var.py` (the packaged copy): same shape, but the middle
branch is
`string[:i] + string[i+1:i+2].upper() + string[i+2:]` — only the single
character right after the match is uppercased, the rest is left
alone. -/
def stepB (s : List Nat) (i : Nat) : List Nat :=
  if i = 0 then s.drop 1
  else if i = s.length - 1 then s.take (s.length - 1)
  else
    s.take i ++
      (match s.drop (i + 1) with
        | [] => []
        | c :: cs => toUpperCh c :: cs)

/-- The `while m is not None` loop, iterated with explicit fuel; each
iteration removes one character, so `s.length` fuel always suffices. -/
def alphanumLoop (step : List Nat → Nat → List Nat) : Nat → List Nat → List Nat
  | 0, s => s
  | fuel + 1, s =>
    match findBad s with
    | none => s
    | some i => alphanumLoop step fuel (step s i)

/-- `alphanum` from `src/var.py`. -/
def alphanumA (s : List Nat) : List Nat := alphanumLoop stepA s.length s

/-- `alphanum` from `src/src/pawslib/var.py`. -/
def alphanumB (s : List Nat) : List Nat := alphanumLoop stepB s.length s

-- "my_subnet_in_eu-west-1a!" becomes "mySubnetInEuWest1a" (the
-- docstring example; both copies agree on it).
example :
    alphanumA [109, 121, 95, 115, 117, 98, 110, 101, 116, 95, 105, 110, 95,
      101, 117, 45, 119, 101, 115, 116, 45, 49, 97, 33] =
    [109, 121, 83, 117, 98, 110, 101, 116, 73, 110, 69, 117, 87, 101, 115,
      116, 49, 97] := by decide

example :
    alphanumB [109, 121, 95, 115, 117, 98, 110, 101, 116, 95, 105, 110, 95,
      101, 117, 45, 119, 101, 115, 116, 45, 49, 97, 33] =
    [109, 121, 83, 117, 98, 110, 101, 116, 73, 110, 69, 117, 87, 101, 115,
      116, 49, 97] := by decide

-- "a_bC": the old copy lowercases the tail ("aBc"), the new one does
-- not ("aBC").
example : alphanumA [97, 95, 98, 67] = [97, 66, 99] := by decide
example : alphanumB [97, 95, 98, 67] = [97, 66, 67] := by decide

/-! ## The success path of `split_net_across_zones` -/

theorem two_pow_land_pred (d : Nat) : (2 ^ d) &&& (2 ^ d - 1) = 0 := by
  apply Nat.eq_of_testBit_eq
  intro i
  simp only [Nat.testBit_land, Nat.testBit_two_pow, Nat.testBit_two_pow_sub_one,
    Nat.zero_testBit, Bool.and_eq_false_imp, decide_eq_true_eq]
  intro h
  simp [h]

theorem subnetsCheck_pow2 (d : Nat) : subnetsCheck (.int (2 ^ d)) = .ok () := by
  have hcast : ((2 : Int) ^ d) = ((2 ^ d : Nat) : Int) := by push_cast; ring
  have hone : (1 : Nat) ≤ 2 ^ d := Nat.one_le_two_pow
  have hcast1 : ((2 : Int) ^ d) - 1 = ((2 ^ d - 1 : Nat) : Int) := by
    rw [hcast, Nat.cast_sub hone, Nat.cast_one]
  simp only [subnetsCheck]
  rw [if_pos]
  refine ⟨?_, ?_⟩
  · rw [hcast1, hcast]
    show Int.land (Int.ofNat _) (Int.ofNat _) = 0
    have hland : Int.land (Int.ofNat (2 ^ d)) (Int.ofNat (2 ^ d - 1)) =
        Int.ofNat ((2 ^ d) &&& (2 ^ d - 1)) := rfl
    rw [hland, two_pow_land_pred]
    rfl
  · positivity

theorem log2fuel_two_pow (d : Nat) : ∀ fuel, 2 ^ d ≤ fuel → log2fuel fuel (2 ^ d) = d := by
  induction d with
  | zero =>
    intro fuel h
    cases fuel with
    | zero => omega
    | succ f => simp [log2fuel]
  | succ d ih =>
    intro fuel h
    have h2 : 2 ^ d * 2 ≤ fuel := by rw [← Nat.pow_succ]; exact h
    have h1 : 0 < 2 ^ d := Nat.two_pow_pos d
    cases fuel with
    | zero => omega
    | succ f =>
      have hgt : ¬ (2 ^ (d + 1) ≤ 1) := by rw [Nat.pow_succ]; omega
      have hdiv : 2 ^ (d + 1) / 2 = 2 ^ d := by
        rw [Nat.pow_succ]; exact Nat.mul_div_cancel _ (by omega)
      simp only [log2fuel, if_neg hgt, hdiv]
      rw [ih f (by omega)]

theorem intLog2_two_pow (d : Nat) : intLog2 ((2 : Int) ^ d) = d := by
  have h : ((2 : Int) ^ d).toNat = 2 ^ d := by
    rw [show ((2 : Int) ^ d) = ((2 ^ d : Nat) : Int) by push_cast; ring]
    exact Int.toNat_natCast _
  unfold intLog2
  rw [h]
  exact log2fuel_two_pow d (2 ^ d) (le_refl _)

theorem ip_network_valid_ok (a p : Nat) (ha : a < 2 ^ 32) (hp : p ≤ 32)
    (hal : a % 2 ^ (32 - p) = 0) :
    ip_network (some ⟨a, p⟩) = .ok ⟨a, p⟩ := by
  simp [ip_network, ipNetworkValid, hp, hal]
  omega

theorem pySubnets_ok (a p d : Nat) (h : p + d ≤ 32) :
    pySubnets ⟨a, p⟩ d = .ok ((List.range (2 ^ d)).map fun k =>
      ⟨a + k * 2 ^ (32 - (p + d)), p + d⟩) := by
  unfold pySubnets
  rw [if_neg (by simp; omega)]

theorem assignZones_ok (azs : List String) (snets : List IPv4Net) (h : azs ≠ []) :
    assignZones azs snets = .ok ((List.range snets.length).map fun i =>
      ⟨with_prefixlen (snets.getD i default), azs.getD (i % azs.length) ""⟩) := by
  unfold assignZones
  rw [if_neg]
  simpa using h

theorem getD_range_map {α : Type} (f : Nat → α) (n i : Nat) (dflt : α) (h : i < n) :
    ((List.range n).map f).getD i dflt = f i := by
  simp [List.getD_eq_getElem?_getD, List.getElem?_map, List.getElem?_range h]

/-- Closed form of the whole success path: valid power-of-two count,
valid network, non-empty zone list. -/
theorem split_ok (a p d : Nat) (zones : List String)
    (ha : a < 2 ^ 32) (hpd : p + d ≤ 32) (hal : a % 2 ^ (32 - p) = 0)
    (hz : zones ≠ []) :
    split_net_across_zones (.int (2 ^ d)) (some ⟨a, p⟩) zones =
      ([.describeAZs], .ok ((List.range (2 ^ d)).map fun i =>
        ⟨with_prefixlen ⟨a + i * 2 ^ (32 - (p + d)), p + d⟩,
         zones.getD (i % zones.length) ""⟩)) := by
  have h1 := subnetsCheck_pow2 d
  have h2 := ip_network_valid_ok a p ha (by omega) hal
  have h3 := pySubnets_ok a p d hpd
  have hval : pyIntVal (.int ((2 : Int) ^ d)) = (2 : Int) ^ d := rfl
  simp only [split_net_across_zones, h1, h2, hval, intLog2_two_pow, h3,
    assignZones_ok zones _ hz]
  rw [List.length_map, List.length_range]
  refine congrArg _ (congrArg _ ?_)
  apply List.map_congr_left
  intro i hi
  rw [getD_range_map _ _ _ _ (List.mem_range.mp hi)]

/-! ## Claim theorems for `split_net_across_zones` -/

/-- C1 (amended): for every valid CIDR block `a/p`, every positive
power-of-two subnet count `2 ^ d` **with `p + d ≤ 32`**, and every
non-empty zone list, `split_net_across_zones` returns exactly `2 ^ d`
sub-blocks; the `i`-th has address `a + i * 2 ^ (32 - (p + d))` and
prefix length `p + d`, so the blocks are equal-sized, contiguous,
non-overlapping, ascending, and their total size `2 ^ d` times the
sub-block size is the input block's size — an exact partition. -/
theorem C1_split_partitions (a p d : Nat) (zones : List String)
    (ha : a < 2 ^ 32) (hpd : p + d ≤ 32) (hal : a % 2 ^ (32 - p) = 0)
    (hz : zones ≠ []) :
    ∃ r, split_net_across_zones (.int (2 ^ d)) (some ⟨a, p⟩) zones =
        ([.describeAZs], .ok r) ∧
      r.length = 2 ^ d ∧
      (∀ i, i < 2 ^ d →
        (r.getD i default).cidr = with_prefixlen ⟨a + i * 2 ^ (32 - (p + d)), p + d⟩) ∧
      2 ^ d * 2 ^ (32 - (p + d)) = 2 ^ (32 - p) := by
  refine ⟨_, split_ok a p d zones ha hpd hal hz, ?_, ?_, ?_⟩
  · simp
  · intro i hi
    rw [getD_range_map _ _ _ _ hi]
  · rw [← pow_add]
    congr 1
    omega

/-- Witness for C1 at `192.168.1.0/24`, `subnet_count = 4`,
zones `["a", "b", "c"]`. -/
theorem C1_witness :
    3232235776 < 2 ^ 32 ∧ 24 + 2 ≤ 32 ∧ 3232235776 % 2 ^ (32 - 24) = 0 ∧
      (["a", "b", "c"] : List String) ≠ [] ∧
      (∃ r, split_net_across_zones (.int (2 ^ 2)) (some ⟨3232235776, 24⟩)
          ["a", "b", "c"] = ([.describeAZs], .ok r) ∧
        r.length = 2 ^ 2 ∧
        (∀ i, i < 2 ^ 2 → (r.getD i default).cidr =
          with_prefixlen ⟨3232235776 + i * 2 ^ (32 - (24 + 2)), 24 + 2⟩) ∧
        2 ^ 2 * 2 ^ (32 - (24 + 2)) = 2 ^ (32 - 24)) :=
  ⟨by decide, by decide, by decide, by decide,
    C1_split_partitions 3232235776 24 2 ["a", "b", "c"]
      (by decide) (by decide) (by decide) (by decide)⟩

/-- C1 counterexample to the unamended claim: `1024 = 2 ^ 10` is a
positive integer power of two and `192.168.1.0/24` a valid CIDR, but
the required prefix length would be `34 > 32`, so
`ip_network(...).subnets(...)` raises `ValueError` and no sub-blocks
are returned. -/
theorem C1_counterexample :
    split_net_across_zones (.int 1024) (some ⟨3232235776, 24⟩) ["a"] =
      ([.describeAZs], .error .valueError) ∧ (1024 : Int) = 2 ^ 10 := by decide

/-- C2: integer subnet counts 0, 3, 5 and -2 all raise the power-of-two
`ValueError` before the external zone read (empty trace).  The
non-integer `2.0`, however, raises `TypeError` — Python evaluates
`subnets & (subnets - 1)` before the `type(subnets) is int` conjunct
meant to catch it — so the claimed `InvalidSubnetCount` error is never
reached for floats (also before the external call). -/
theorem C2_validation_behaviour (net : Option IPv4Net) (zones : List String) :
    split_net_across_zones (.int 0) net zones = ([], .error .valueError) ∧
    split_net_across_zones (.int 3) net zones = ([], .error .valueError) ∧
    split_net_across_zones (.int 5) net zones = ([], .error .valueError) ∧
    split_net_across_zones (.int (-2)) net zones = ([], .error .valueError) ∧
    split_net_across_zones (.float 2) net zones = ([], .error .typeError) := by
  have h0 : subnetsCheck (.int 0) = .error .valueError := by
    simp only [subnetsCheck]
    rw [if_neg]
    intro h
    exact h.2 rfl
  have h3 : subnetsCheck (.int 3) = .error .valueError := by decide
  have h5 : subnetsCheck (.int 5) = .error .valueError := by decide
  have hm2 : subnetsCheck (.int (-2)) = .error .valueError := by decide
  have hf : subnetsCheck (.float 2) = .error .typeError := by decide
  exact ⟨by simp [split_net_across_zones, h0], by simp [split_net_across_zones, h3],
    by simp [split_net_across_zones, h5], by simp [split_net_across_zones, hm2],
    by simp [split_net_across_zones, hf]⟩

/-- C3: on the success path, the `i`-th assignment carries zone
`zones[i mod len(zones)]`, in the order the collaborator returned the
zones. -/
theorem C3_zone_cycling (a p d : Nat) (zones : List String)
    (ha : a < 2 ^ 32) (hpd : p + d ≤ 32) (hal : a % 2 ^ (32 - p) = 0)
    (hz : zones ≠ []) :
    ∃ r, split_net_across_zones (.int (2 ^ d)) (some ⟨a, p⟩) zones =
        ([.describeAZs], .ok r) ∧
      ∀ i, i < r.length → (r.getD i default).az = zones.getD (i % zones.length) "" := by
  refine ⟨_, split_ok a p d zones ha hpd hal hz, ?_⟩
  intro i hi
  rw [List.length_map, List.length_range] at hi
  rw [getD_range_map _ _ _ _ hi]

/-- Witness for C3 at `10.0.0.0/8`, `subnet_count = 2`,
zones `["x", "y"]`. -/
theorem C3_witness :
    167772160 < 2 ^ 32 ∧ 8 + 1 ≤ 32 ∧ 167772160 % 2 ^ (32 - 8) = 0 ∧
      (["x", "y"] : List String) ≠ [] ∧
      (∃ r, split_net_across_zones (.int (2 ^ 1)) (some ⟨167772160, 8⟩)
          ["x", "y"] = ([.describeAZs], .ok r) ∧
        ∀ i, i < r.length →
          (r.getD i default).az = (["x", "y"] : List String).getD (i % 2) "") :=
  ⟨by decide, by decide, by decide, by decide,
    C3_zone_cycling 167772160 8 1 ["x", "y"]
      (by decide) (by decide) (by decide) (by decide)⟩

/-- C4: the spec's worked example, evaluated: splitting
`192.168.1.0/24` into 4 across zones `["a", "b", "c"]` yields the four
`/26` blocks with the zone cycling back to `"a"` on the fourth. -/
theorem C4_example_output :
    split_net_across_zones (.int 4) (some ⟨3232235776, 24⟩) ["a", "b", "c"] =
      ([.describeAZs], .ok
        [⟨"192.168.1.0/26", "a"⟩, ⟨"192.168.1.64/26", "b"⟩,
         ⟨"192.168.1.128/26", "c"⟩, ⟨"192.168.1.192/26", "a"⟩]) := by decide

/-- C5: whenever the subnet count passes validation and the network
argument fails to parse (or is an invalid network), the call returns
the parse `ValueError` and nothing else — no partial assignment list
exists, the single returned value is the error. -/
theorem C5_malformed_net (s : PyVal) (net : Option IPv4Net) (zones : List String)
    (e : PyErr) (hok : subnetsCheck s = .ok ()) (hbad : ip_network net = .error e) :
    split_net_across_zones s net zones = ([.describeAZs], .error e) := by
  simp [split_net_across_zones, hok, hbad]

/-- Witness for C5: `subnets = 4`, unparseable network string. -/
theorem C5_witness :
    subnetsCheck (.int 4) = .ok () ∧ ip_network none = .error .valueError ∧
      split_net_across_zones (.int 4) none [] = ([.describeAZs], .error .valueError) :=
  ⟨by decide, by decide, C5_malformed_net (.int 4) none [] .valueError (by decide) (by decide)⟩

/-- C6 counterexample to the claim as stated: `192.168.1.0/24` is a
valid network and `1024 = 2 ^ 10` a validated power-of-two count, yet
with an empty zone list the call fails with the `subnets()`
`ValueError` (prefix 34 > 32), not a modulo-by-zero error — the claim's
universal quantification over valid counts fails at this input. -/
theorem C6_counterexample :
    split_net_across_zones (.int 1024) (some ⟨3232235776, 24⟩) [] =
      ([.describeAZs], .error .valueError) ∧
    PyErr.valueError ≠ PyErr.zeroDivisionError ∧ (1024 : Int) = 2 ^ 10 := by decide

/-- C6 (amended): for every valid network and power-of-two count whose
required prefix still fits (`p + d ≤ 32`), an empty zone list makes the
zone-assignment loop raise `ZeroDivisionError` (Python's `i % 0`)
rather than any dedicated validation error. -/
theorem C6_empty_zones_zeroDiv (a p d : Nat)
    (ha : a < 2 ^ 32) (hpd : p + d ≤ 32) (hal : a % 2 ^ (32 - p) = 0) :
    split_net_across_zones (.int (2 ^ d)) (some ⟨a, p⟩) [] =
      ([.describeAZs], .error .zeroDivisionError) := by
  have h1 := subnetsCheck_pow2 d
  have h2 := ip_network_valid_ok a p ha (by omega) hal
  have h3 := pySubnets_ok a p d hpd
  have hval : pyIntVal (.int ((2 : Int) ^ d)) = (2 : Int) ^ d := rfl
  simp only [split_net_across_zones, h1, h2, hval, intLog2_two_pow, h3]
  simp [assignZones, Nat.pow_eq_zero]

/-- Witness for C6 at `10.0.0.0/8`, `subnet_count = 1`, empty zones. -/
theorem C6_witness :
    167772160 < 2 ^ 32 ∧ 8 + 0 ≤ 32 ∧ 167772160 % 2 ^ (32 - 8) = 0 ∧
      split_net_across_zones (.int (2 ^ 0)) (some ⟨167772160, 8⟩) [] =
        ([.describeAZs], .error .zeroDivisionError) :=
  ⟨by decide, by decide, by decide,
    C6_empty_zones_zeroDiv 167772160 8 0 (by decide) (by decide) (by decide)⟩

/-- C7: the function is deterministic — two calls whose inputs and
whose zone-directory response coincide return equal traces and equal
results (the model is a pure function of the inputs plus the external
read, exactly as the source computes nothing else). -/
theorem C7_deterministic (s t : PyVal) (n m : Option IPv4Net) (z w : List String)
    (hs : s = t) (hn : n = m) (hz : z = w) :
    split_net_across_zones s n z = split_net_across_zones t m w := by
  rw [hs, hn, hz]

/-- Witness for C7: two identical calls on the worked example agree. -/
theorem C7_witness :
    (PyVal.int 4 = PyVal.int 4) ∧
      ((some ⟨3232235776, 24⟩ : Option IPv4Net) = some ⟨3232235776, 24⟩) ∧
      ((["a", "b", "c"] : List String) = ["a", "b", "c"]) ∧
      split_net_across_zones (.int 4) (some ⟨3232235776, 24⟩) ["a", "b", "c"] =
        split_net_across_zones (.int 4) (some ⟨3232235776, 24⟩) ["a", "b", "c"] :=
  ⟨rfl, rfl, rfl, C7_deterministic _ _ _ _ _ _ rfl rfl rfl⟩

/-- C8: when the subnet count passes validation, the external
`describe_availability_zones` read is performed even though the network
string will fail to parse: the trace contains the call, and the parse
`ValueError` comes after it. -/
theorem C8_call_precedes_parse_error (s : PyVal) (zones : List String)
    (hok : subnetsCheck s = .ok ()) :
    (split_net_across_zones s none zones).1 = [.describeAZs] ∧
    (split_net_across_zones s none zones).2 = .error .valueError := by
  have hbad : ip_network none = .error .valueError := rfl
  constructor <;> simp [split_net_across_zones, hok, hbad]

/-- Witness for C8: `subnets = 2` passes validation; the call is made
and the parse error follows. -/
theorem C8_witness :
    subnetsCheck (.int 2) = .ok () ∧
      (split_net_across_zones (.int 2) none ["a"]).1 = [.describeAZs] ∧
      (split_net_across_zones (.int 2) none ["a"]).2 = .error .valueError :=
  ⟨by decide, C8_call_precedes_parse_error (.int 2) ["a"] (by decide)⟩

/-! ## Lemmas about the two `alphanum` copies -/

theorem isAlnumCh_toLowerCh (c : Nat) : isAlnumCh (toLowerCh c) = isAlnumCh c := by
  unfold toLowerCh
  split
  · rename_i h
    simp only [Bool.and_eq_true, decide_eq_true_eq] at h
    unfold isAlnumCh
    rw [Bool.eq_iff_iff]
    simp only [Bool.or_eq_true, Bool.and_eq_true, decide_eq_true_eq]
    omega
  · rfl

theorem toLowerCh_toUpperCh (c : Nat) : toLowerCh (toUpperCh c) = toLowerCh c := by
  unfold toUpperCh toLowerCh
  split
  · rename_i h
    simp only [Bool.and_eq_true, decide_eq_true_eq] at h
    rw [if_pos (by simp only [Bool.and_eq_true, decide_eq_true_eq]; omega),
      if_neg (by simp only [Bool.and_eq_true, decide_eq_true_eq]; omega)]
    omega
  · rfl

theorem toLowerCh_toLowerCh (c : Nat) : toLowerCh (toLowerCh c) = toLowerCh c := by
  unfold toLowerCh
  split
  · rename_i h
    simp only [Bool.and_eq_true, decide_eq_true_eq] at h
    rw [if_neg (by simp only [Bool.and_eq_true, decide_eq_true_eq]; omega)]
  · rfl

theorem pyCapitalize_lower (u : List Nat) :
    (pyCapitalize u).map toLowerCh = u.map toLowerCh := by
  cases u with
  | nil => rfl
  | cons c cs =>
    simp only [pyCapitalize, List.map_cons, List.map_map, toLowerCh_toUpperCh]
    congr 1
    apply List.map_congr_left
    intro a _
    simp only [Function.comp_apply, toLowerCh_toLowerCh]

theorem findBad_map_lower (s : List Nat) : findBad (s.map toLowerCh) = findBad s := by
  induction s with
  | nil => rfl
  | cons c cs ih => simp only [List.map_cons, findBad, isAlnumCh_toLowerCh, ih]

theorem findBad_lt (s : List Nat) (i : Nat) (h : findBad s = some i) :
    i < s.length := by
  induction s generalizing i with
  | nil => simp [findBad] at h
  | cons c cs ih =>
    simp only [findBad] at h
    by_cases hc : isAlnumCh c
    · rw [if_pos hc] at h
      cases hfb : findBad cs with
      | none => rw [hfb] at h; simp at h
      | some j =>
        rw [hfb] at h
        simp only [Option.map_some', Option.some.injEq] at h
        have hj := ih j hfb
        simp only [List.length_cons]
        omega
    · rw [if_neg hc] at h
      simp only [Option.some.injEq] at h
      simp only [List.length_cons]
      omega

theorem all_alnum_of_findBad_none (s : List Nat) (h : findBad s = none) :
    ∀ c ∈ s, isAlnumCh c = true := by
  induction s with
  | nil => intro c hc; simp at hc
  | cons a as ih =>
    simp only [findBad] at h
    by_cases ha : isAlnumCh a
    · rw [if_pos ha] at h
      cases hfb : findBad as with
      | some j => rw [hfb] at h; simp at h
      | none =>
        intro c hc
        rcases List.mem_cons.mp hc with rfl | hmem
        · exact ha
        · exact ih hfb c hmem
    · rw [if_neg ha] at h
      simp at h

theorem pyCapitalize_length (u : List Nat) : (pyCapitalize u).length = u.length := by
  cases u <;> simp [pyCapitalize]

theorem stepA_length (s : List Nat) (i : Nat) (h : i < s.length) :
    (stepA s i).length + 1 = s.length := by
  unfold stepA
  by_cases h0 : i = 0
  · rw [if_pos h0]
    simp only [List.length_drop]
    omega
  · rw [if_neg h0]
    by_cases hl : i = s.length - 1
    · rw [if_pos hl]
      simp only [List.length_take]
      omega
    · rw [if_neg hl]
      simp only [List.length_append, List.length_take, pyCapitalize_length,
        List.length_drop]
      omega

theorem stepB_length (s : List Nat) (i : Nat) (h : i < s.length) :
    (stepB s i).length + 1 = s.length := by
  unfold stepB
  by_cases h0 : i = 0
  · rw [if_pos h0]
    simp only [List.length_drop]
    omega
  · rw [if_neg h0]
    by_cases hl : i = s.length - 1
    · rw [if_pos hl]
      simp only [List.length_take]
      omega
    · rw [if_neg hl]
      have hm : (match s.drop (i + 1) with
          | [] => ([] : List Nat)
          | c :: cs => toUpperCh c :: cs).length = (s.drop (i + 1)).length := by
        cases s.drop (i + 1) <;> rfl
      rw [List.length_append, hm]
      simp only [List.length_take, List.length_drop]
      omega

theorem alphanumLoop_none (step : List Nat → Nat → List Nat) (fuel : Nat)
    (s : List Nat) (h : findBad s = none) : alphanumLoop step fuel s = s := by
  cases fuel with
  | zero => rfl
  | succ f => simp [alphanumLoop, h]

theorem alphanumLoop_clean (step : List Nat → Nat → List Nat)
    (hstep : ∀ t i, findBad t = some i → (step t i).length + 1 = t.length) :
    ∀ fuel s, s.length ≤ fuel → findBad (alphanumLoop step fuel s) = none := by
  intro fuel
  induction fuel with
  | zero =>
    intro s hs
    have hnil : s = [] := List.length_eq_zero.mp (by omega)
    subst hnil
    rfl
  | succ f ih =>
    intro s hs
    cases hfb : findBad s with
    | none => simp [alphanumLoop, hfb]
    | some i =>
      simp only [alphanumLoop, hfb]
      exact ih (step s i) (by have := hstep s i hfb; omega)

theorem alphanumLoop_extra (step : List Nat → Nat → List Nat) :
    ∀ fuel extra s, findBad (alphanumLoop step fuel s) = none →
      alphanumLoop step (fuel + extra) s = alphanumLoop step fuel s := by
  intro fuel
  induction fuel with
  | zero =>
    intro extra s h
    simp only [Nat.zero_add]
    exact alphanumLoop_none step extra s h
  | succ f ih =>
    intro extra s h
    cases hfb : findBad s with
    | none => rw [alphanumLoop_none step _ s hfb, alphanumLoop_none step _ s hfb]
    | some i =>
      rw [show f + 1 + extra = (f + extra) + 1 by omega]
      simp only [alphanumLoop, hfb] at h ⊢
      exact ih extra (step s i) h

theorem step_lower (s t : List Nat) (i : Nat)
    (h : s.map toLowerCh = t.map toLowerCh) :
    (stepA s i).map toLowerCh = (stepB t i).map toLowerCh := by
  have hlen : s.length = t.length := by
    have hc := congrArg List.length h
    simpa using hc
  unfold stepA stepB
  by_cases h0 : i = 0
  · rw [if_pos h0, if_pos h0, List.map_drop, List.map_drop, h]
  · rw [if_neg h0, if_neg h0, ← hlen]
    by_cases hl : i = s.length - 1
    · rw [if_pos hl, if_pos hl, List.map_take, List.map_take, h, hlen]
    · rw [if_neg hl, if_neg hl, List.map_append, List.map_append]
      congr 1
      · rw [List.map_take, List.map_take, h]
      · rw [pyCapitalize_lower]
        rw [show (s.drop (i + 1)).map toLowerCh = (t.drop (i + 1)).map toLowerCh by
          rw [List.map_drop, List.map_drop, h]]
        cases t.drop (i + 1) with
        | nil => rfl
        | cons c cs => simp [List.map_cons, toLowerCh_toUpperCh]

theorem loop_lower : ∀ fuel (s t : List Nat), s.map toLowerCh = t.map toLowerCh →
    (alphanumLoop stepA fuel s).map toLowerCh =
      (alphanumLoop stepB fuel t).map toLowerCh := by
  intro fuel
  induction fuel with
  | zero => intro s t h; exact h
  | succ f ih =>
    intro s t h
    have hfb : findBad t = findBad s := by
      rw [← findBad_map_lower s, ← findBad_map_lower t, h]
    cases hfs : findBad s with
    | none =>
      have hft : findBad t = none := hfb.trans hfs
      simp only [alphanumLoop, hfs, hft]
      exact h
    | some i =>
      have hft : findBad t = some i := hfb.trans hfs
      simp only [alphanumLoop, hfs, hft]
      exact ih (stepA s i) (stepB t i) (step_lower s t i h)

/-! ## Claim theorems for `alphanum` -/

/-- C9 counterexample: on `"a_bC"` (code points `[97, 95, 98, 67]`) the
top-level copy returns `"aBc"` — `str.capitalize` lowercases everything
after the first character of the tail — while the packaged copy returns
`"aBC"`, so the two copies do not compute the same function. -/
theorem C9_counterexample :
    alphanumA [97, 95, 98, 67] = [97, 66, 99] ∧
    alphanumB [97, 95, 98, 67] = [97, 66, 67] ∧
    alphanumA [97, 95, 98, 67] ≠ alphanumB [97, 95, 98, 67] := by decide

/-- C9 (amended): the two copies agree up to ASCII letter case — they
delete the same characters at the same positions and differ at most in
the case of letters after a deletion point, so lowercasing both outputs
always yields the same string. -/
theorem C9_equal_up_to_case (s : List Nat) :
    (alphanumA s).map toLowerCh = (alphanumB s).map toLowerCh :=
  loop_lower s.length s s rfl

/-- C10: each iteration of the `while` loop (in either copy) removes
exactly one matched character — the string's length strictly decreases
by one — hence the loop terminates within `length` iterations: giving
the loop any extra fuel beyond the string's length changes nothing, and
the returned string contains no character matching `[\W_]`. -/
theorem C10_terminates_clean (s : List Nat) :
    (∀ t i, findBad t = some i → (stepA t i).length + 1 = t.length) ∧
    (∀ t i, findBad t = some i → (stepB t i).length + 1 = t.length) ∧
    (∀ extra, alphanumLoop stepA (s.length + extra) s = alphanumA s) ∧
    (∀ extra, alphanumLoop stepB (s.length + extra) s = alphanumB s) ∧
    (∀ c ∈ alphanumA s, isAlnumCh c = true) ∧
    (∀ c ∈ alphanumB s, isAlnumCh c = true) := by
  have hA : ∀ t i, findBad t = some i → (stepA t i).length + 1 = t.length :=
    fun t i h => stepA_length t i (findBad_lt t i h)
  have hB : ∀ t i, findBad t = some i → (stepB t i).length + 1 = t.length :=
    fun t i h => stepB_length t i (findBad_lt t i h)
  have hcleanA : findBad (alphanumA s) = none :=
    alphanumLoop_clean stepA hA s.length s (le_refl _)
  have hcleanB : findBad (alphanumB s) = none :=
    alphanumLoop_clean stepB hB s.length s (le_refl _)
  refine ⟨hA, hB, ?_, ?_, ?_, ?_⟩
  · intro extra
    exact alphanumLoop_extra stepA s.length extra s hcleanA
  · intro extra
    exact alphanumLoop_extra stepB s.length extra s hcleanB
  · exact all_alnum_of_findBad_none _ hcleanA
  · exact all_alnum_of_findBad_none _ hcleanB

/-- Witness for C10 at `"a_b"` (`[97, 95, 98]`): the loop's one
iteration shrinks the string by one, and the final string is clean. -/
theorem C10_witness :
    findBad [97, 95, 98] = some 1 ∧ (stepA [97, 95, 98] 1).length + 1 = 3 ∧
      (stepB [97, 95, 98] 1).length + 1 = 3 ∧
      (∀ c ∈ alphanumA [97, 95, 98], isAlnumCh c = true) ∧
      (∀ c ∈ alphanumB [97, 95, 98], isAlnumCh c = true) :=
  ⟨by decide,
    (C10_terminates_clean [97, 95, 98]).1 [97, 95, 98] 1 (by decide),
    (C10_terminates_clean [97, 95, 98]).2.1 [97, 95, 98] 1 (by decide),
    (C10_terminates_clean [97, 95, 98]).2.2.2.2.1,
    (C10_terminates_clean [97, 95, 98]).2.2.2.2.2⟩

end Pawslib
